import Mathlib

/-!
Shallow embedding of the three-phase stock redistribution engine
(`traslados/engine_core.py`, `traslados/bodega_drainer.py`,
`traslados/curve_completer.py` and `config/settings.py`) and proofs of the
specification claims about it.

Conventions of the embedding:
* a pandas stock DataFrame is a `List StockRow` (row order = positional index);
* `Existencia` is a rational number, since the Python code assigns
  `cantidad / len(indices)` (true division) to it;
* Python `int(x)` truncation toward zero is `intTrunc`;
* a missing / NaN float is an `Option` value (`none` = NaN / infinity where the
  code uses `np.inf`);
* the `(Tienda, SKU) -> row indices` dictionary is recomputed from the rows:
  the Python index is built once and rows never change their key fields, and
  appended rows are registered under their key, so the dictionary always equals
  the recomputation;
* Python `str.strip().upper()` is `normStr`, `'ECOM' in s.upper()` is
  `containsECOM`, and a Python stable sort by key is `sortBy` (insertion sort,
  which is stable) with a total boolean preorder encoding the sort key.
-/

/-- Constants from `config/settings.py`. -/
def MIN_POR_SKU_TIENDA : ℤ := 2

/-- Minimum per SKU for e-commerce stores (`config/settings.py`). -/
def MIN_POR_SKU_ECOM : ℤ := 3

/-- Per-SKU capacity cap (`config/settings.py`). -/
def MAX_STOCK_PER_SKU : ℤ := 6

/-- Coverage days an origin store must retain (`config/settings.py`). -/
def ORIGIN_MIN_COV_DAYS : ℤ := 7

/-- Coverage days a destination targets (`config/settings.py`). -/
def DEST_TARGET_COV_DAYS : ℤ := 7

/-- Coverage days an e-commerce origin must retain (`config/settings.py`). -/
def ORIGIN_MIN_COV_ECOM : ℤ := 7

/-- Coverage days an e-commerce destination targets (`config/settings.py`). -/
def DEST_TARGET_COV_ECOM : ℤ := 7

/-- Safety buffer in days for the origin-ranking filter (`config/settings.py`). -/
def COV_BUFFER_DAYS : ℚ := 1

/-- Truncation toward zero, the semantics of Python `int(x)` on a float. -/
def intTrunc (q : ℚ) : ℤ := if 0 ≤ q then ⌊q⌋ else ⌈q⌉

/-- Uppercasing of a string, the semantics of Python `str.upper()` (ASCII). -/
def strUpper (s : String) : String := ⟨s.data.map Char.toUpper⟩

/-- Whitespace trimming, the semantics of Python `str.strip()`. -/
def strTrim (s : String) : String :=
  ⟨((s.data.dropWhile Char.isWhitespace).reverse.dropWhile Char.isWhitespace).reverse⟩

/-- Python `str(x).strip().upper()`, used for SKU, store and region matching. -/
def normStr (s : String) : String := strUpper (strTrim s)

/-- Test whether a list starts with the given segment. -/
def startsWithSeg : List Char → List Char → Bool
  | [], _ => true
  | _ :: _, [] => false
  | a :: as, b :: bs => a == b && startsWithSeg as bs

/-- Test whether a list contains the given contiguous segment. -/
def hasSeg (pat : List Char) : List Char → Bool
  | [] => pat.isEmpty
  | c :: rest => startsWithSeg pat (c :: rest) || hasSeg pat rest

/-- Python `'ECOM' in str(t).upper()`. -/
def containsECOM (t : String) : Bool := hasSeg "ECOM".data (strUpper t).data

/-- Strict lexicographic order on character lists (Python string `<`). -/
def charListLt : List Char → List Char → Bool
  | [], [] => false
  | [], _ :: _ => true
  | _ :: _, [] => false
  | a :: as, b :: bs => if a < b then true else if b < a then false else charListLt as bs

/-- Non-strict string order used as the final tie-break of Python tuple sorts. -/
def strLE (a b : String) : Bool := a == b || charListLt a.data b.data

/-- Stable insertion of an element into a list sorted by `le`. -/
def insertSorted {α : Type} (le : α → α → Bool) (a : α) : List α → List α
  | [] => [a]
  | b :: l => if le a b then a :: b :: l else b :: insertSorted le a l

/-- Stable sort by a total boolean preorder; for such preorders this agrees
with Python's stable `list.sort`. -/
def sortBy {α : Type} (le : α → α → Bool) : List α → List α
  | [] => []
  | a :: l => insertSorted le a (sortBy le l)

/-- Deduplication keeping the first occurrence of each element, the iteration
order of the keys of a Python dict built by insertion. -/
def firstOcc {α : Type} [BEq α] : List α → List α
  | [] => []
  | a :: l => a :: (firstOcc l).filter (fun b => !(b == a))

/-- One physical row of the stock table. `adu = none` models a NaN ADU. -/
structure StockRow where
  tienda : String
  sku : String
  referencia : String
  talla : String
  existencia : ℚ
  adu : Option ℚ
  isEcom : Bool
  minObjetivo : ℤ
  region : Option String
  regionID : Option ℤ
deriving DecidableEq

/-- One row of the ADU table (`adu_df`): average daily units per store / SKU. -/
structure AduRow where
  tienda : String
  sku : String
  adu : ℚ
deriving DecidableEq

/-- One row of the delivery-times table (`tiempos_df`), with normalized
origin / destination keys `_O`, `_D` and numeric `_PRI_NUM`, `_ETA_NUM`
(`none` = NaN). -/
structure TiempoRow where
  o : String
  d : String
  priNum : Option ℚ
  etaNum : Option ℚ
deriving DecidableEq

/-- One recorded transfer, with the before / after stock snapshots the Python
code stores. -/
structure Transfer where
  origen : String
  destino : String
  antesO : ℤ
  despuesO : ℤ
  antesD : ℤ
  despuesD : ℤ
  cantidad : ℤ
  referencia : String
  talla : String
deriving DecidableEq

/-- Row predicate for the `(Tienda, SKU)` index key. -/
def keyMatch (t k : String) (r : StockRow) : Bool := r.tienda == t && r.sku == k

/-- Membership of a `(Tienda, SKU)` key in the index (`key in idx_tienda_sku`). -/
def keyPresent (s : List StockRow) (t k : String) : Bool := s.any (keyMatch t k)

/-- Number of physical rows sharing a `(Tienda, SKU)` key. -/
def countKey (s : List StockRow) (t k : String) : ℕ := (s.filter (keyMatch t k)).length

/-- Exact rational total quantity of a `(Tienda, SKU)` key. -/
def getStockQ (s : List StockRow) (t k : String) : ℚ :=
  ((s.filter (keyMatch t k)).map (·.existencia)).sum

/-- The `get_stock` method shared by all three phases:
`int(stock_df.loc[indices, 'Existencia'].sum())`, `0` when the key is absent. -/
def get_stock (s : List StockRow) (t k : String) : ℤ := intTrunc (getStockQ s t k)

/-- First row of a `(Tienda, SKU)` key (`stock_df.loc[indices[0]]`). -/
def firstRow (s : List StockRow) (t k : String) : Option StockRow := s.find? (keyMatch t k)

/-- Add `d` to the quantity of every row of a `(Tienda, SKU)` key (the
`stock_df.loc[indices, 'Existencia'] +=` mutation). -/
def applyDelta (s : List StockRow) (t k : String) (d : ℚ) : List StockRow :=
  s.map (fun r => if keyMatch t k r then { r with existencia := r.existencia + d } else r)

/-- Exact rational sum of `Existencia` over the whole stock table. -/
def totalQ (s : List StockRow) : ℚ := (s.map (·.existencia)).sum

/-- The `STORE_CATEGORY` dict from `config/settings.py`. -/
def STORE_CATEGORY : List (String × String) :=
  [("BOGOTA PLAZA CENTRAL", "C"), ("NEIVA SAN PEDRO", "B"),
   ("BARRANQUILLA BUENAVISTA", "B"), ("BARRANQUILLA PORTAL DEL PRADO", "C"),
   ("BARRANQUILLA UNICO", "A"), ("BARRANQUILLA VIVA", "C"),
   ("CARTAGENA CARIBE PLAZA", "B"), ("CUCUTA UNICENTRO", "C"),
   ("MONTERIA ALAMEDAS", "C"), ("BUGA PLAZA", "C"),
   ("CALI CHIPICHAPE", "B"), ("CALI JARDIN PLAZA", "A"),
   ("CALI UNICENTRO", "B"), ("CALI UNICO", "A"),
   ("ECOMMERCE", "A"), ("PALMIRA LLANOGRANDE", "B"),
   ("POPAYAN CAMPANARIO", "C"), ("TULUA LA HERRADURA", "C")]

/-- The `get_store_category` helper from `config/settings.py`. -/
def get_store_category (s : String) : String :=
  match STORE_CATEGORY.find? (fun p => p.1 == normStr s) with
  | some p => p.2
  | none => "C"

/-- Category rank used by the drainer and curve completer:
`{'A': 0, 'B': 1, 'C': 2}.get(cat, 3)`. -/
def catRank (c : String) : ℤ :=
  if c == "A" then 0 else if c == "B" then 1 else if c == "C" then 2 else 3

/-- Last-wins association lookup modelling the `adu_map` dict built by the
drainer and curve completer (`adu_map.get((tienda, sku), 0.0)`). -/
def aduMapLookup (adus : List AduRow) (t k : String) : ℚ :=
  match adus.reverse.find? (fun a => a.tienda == t && a.sku == k) with
  | some a => a.adu
  | none => 0

/-- Key list of the `adu_map` dict in its insertion (first occurrence) order. -/
def aduKeys (adus : List AduRow) : List (String × String) :=
  firstOcc (adus.map (fun a => (a.tienda, a.sku)))

/-- The `has_ref_now` test shared by both seeding gates: the store holds a
positive-quantity row for the reference, any size. -/
def hasRefNow (s : List StockRow) (t ref : String) : Bool :=
  s.any (fun r => r.tienda == t && r.referencia == ref && decide ((0 : ℚ) < r.existencia))

namespace Engine

/-- State of `TrasladosEngineCore`. -/
structure State where
  stock : List StockRow
  aduDf : List AduRow
  tiemposDf : List TiempoRow
  bodegaPrincipal : Option String
  noSeed : Bool
  allowSeedIfAdu : Bool
  transfers : List Transfer
deriving DecidableEq

/-- Python truthiness test `if self.bodega_principal and tienda == self.bodega_principal`. -/
def isBodega (st : State) (t : String) : Bool :=
  match st.bodegaPrincipal with
  | some b => decide (b ≠ "") && t == b
  | none => false

/-- The `_get_adu_for_sku` lookup: first `adu_df` row whose store matches
exactly and whose SKU matches up to `strip().upper()`. -/
def getAduForSku (adus : List AduRow) (t sku : String) : ℚ :=
  match adus.find? (fun a => a.tienda == t && normStr a.sku == normStr sku) with
  | some a => a.adu
  | none => 0

/-- The `can_seed_to_store` gate of `TrasladosEngineCore`. -/
def can_seed_to_store (st : State) (tienda referencia sku : String) : Bool :=
  if hasRefNow st.stock tienda referencia then true
  else if st.noSeed then
    st.allowSeedIfAdu && decide ((0 : ℚ) < getAduForSku st.aduDf tienda sku)
  else true

/-- The `get_cobertura` method: days of coverage, `none` meaning `np.inf`. -/
def get_cobertura (st : State) (t k : String) : Option ℚ :=
  match firstRow st.stock t k with
  | none => none
  | some row =>
    let adu := row.adu.getD 0
    if 0 < adu then some ((get_stock st.stock t k : ℚ) / adu) else none

/-- The `allowed_to_send` method: sendable units from a store / SKU. -/
def allowed_to_send (st : State) (t k : String) : ℤ :=
  match firstRow st.stock t k with
  | none => 0
  | some row =>
    let stockActual := get_stock st.stock t k
    if isBodega st t then stockActual
    else
      let adu := row.adu.getD 0
      let minCovDays : ℤ := if row.isEcom then ORIGIN_MIN_COV_ECOM else ORIGIN_MIN_COV_DAYS
      let guardar : ℤ :=
        if 0 < adu then max row.minObjetivo ⌈(minCovDays : ℚ) * adu⌉ else row.minObjetivo
      max 0 (stockActual - guardar)

/-- The `calculate_target_units` method: destination target, capped by
`MAX_STOCK_PER_SKU`. -/
def calculate_target_units (st : State) (t k : String) : ℤ :=
  match firstRow st.stock t k with
  | none => MIN_POR_SKU_TIENDA
  | some row =>
    let adu := row.adu.getD 0
    let targetCovDays : ℤ := if row.isEcom then DEST_TARGET_COV_ECOM else DEST_TARGET_COV_DAYS
    let target : ℤ :=
      if 0 < adu then max row.minObjetivo ⌈(targetCovDays : ℚ) * adu⌉ else row.minObjetivo
    min target MAX_STOCK_PER_SKU

/-- The `_check_same_region` helper: compare by `RegionID`, falling back to
the normalized `Region` name. -/
def check_same_region (s : List StockRow) (a b : String) : Bool :=
  match s.find? (fun r => r.tienda == a), s.find? (fun r => r.tienda == b) with
  | some ra, some rb =>
    (match ra.regionID, rb.regionID with
     | some x, some y => x == y
     | _, _ =>
       match ra.region, rb.region with
       | some x, some y => normStr x == normStr y
       | _, _ => false)
  | _, _ => false

/-- Row of `tiempos_df` for a normalized origin / destination pair. -/
def findTiempo (ts : List TiempoRow) (o d : String) : Option TiempoRow :=
  ts.find? (fun r => r.o == normStr o && r.d == normStr d)

/-- The `_get_delivery_priority` lookup (`none` = NaN). -/
def delivery_priority (st : State) (o d : String) : Option ℚ :=
  (findTiempo st.tiemposDf o d).bind (·.priNum)

/-- The `_get_delivery_days` lookup (`none` = NaN). -/
def delivery_days (st : State) (o d : String) : Option ℚ :=
  (findTiempo st.tiemposDf o d).bind (·.etaNum)

/-- Python `origins_sorted.remove(b); origins_sorted.insert(0, b)` applied
when the warehouse is designated (truthy) and present in the list. -/
def forceFront (bodega : Option String) (l : List String) : List String :=
  match bodega with
  | some b => if b ≠ "" ∧ b ∈ l then b :: l.erase b else l
  | none => l

/-- The composite sort key tuple built by `rank_origins_for_sku`, together
with the candidate origin name. -/
structure RankEntry where
  regionRank : ℤ
  priorityRank : ℤ
  covRank : ℚ
  timeRank : ℚ
  origen : String

/-- Lexicographic comparison of the `(region, priority, coverage, time)` sort
key, non-strict so that `sortBy` is stable like Python `list.sort`. -/
def rankLE (a b : RankEntry) : Bool :=
  if a.regionRank ≠ b.regionRank then decide (a.regionRank < b.regionRank)
  else if a.priorityRank ≠ b.priorityRank then decide (a.priorityRank < b.priorityRank)
  else if a.covRank ≠ b.covRank then decide (a.covRank < b.covRank)
  else decide (a.timeRank ≤ b.timeRank)

/-- Candidate-collection loop of `rank_origins_for_sku`: index keys for the
SKU, excluding the destination, with positive sendable quantity, filtered by
the coverage comparison only when both coverages are finite. -/
def rankCandidates (st : State) (sku destTienda : String) : List String :=
  (firstOcc (st.stock.map (fun r => (r.tienda, r.sku)))).filterMap
    (fun tk =>
      if tk.2 ≠ sku then none
      else if tk.1 = destTienda then none
      else if allowed_to_send st tk.1 sku ≤ 0 then none
      else
        match get_cobertura st tk.1 sku, get_cobertura st destTienda sku with
        | some covO, some covD =>
          if covO ≤ covD + COV_BUFFER_DAYS then none else some tk.1
        | _, _ => some tk.1)

/-- The composite `(region, priority, coverage, lead-time)` key computed for
one candidate origin in `rank_origins_for_sku`. -/
def rankEntryFor (st : State) (sku destTienda origen : String) : RankEntry :=
  { regionRank := if check_same_region st.stock origen destTienda then 0 else 1
    priorityRank :=
      match delivery_priority st origen destTienda with
      | some p => intTrunc p
      | none => 999
    covRank := -(match get_cobertura st origen sku with
      | some c => c
      | none => 1000000000)
    timeRank :=
      match delivery_days st origen destTienda with
      | some t => t
      | none => 999
    origen := origen }

/-- The `rank_origins_for_sku` method: filter candidate origins, sort by the
composite key, then force the main warehouse to the front. -/
def rank_origins_for_sku (st : State) (sku destTienda : String) : List String :=
  match rankCandidates st sku destTienda with
  | [] => []
  | c :: cs =>
    forceFront st.bodegaPrincipal
      ((sortBy rankLE ((c :: cs).map (rankEntryFor st sku destTienda))).map (·.origen))

/-- The `_create_new_stock_row` helper: seed row copying store metadata. -/
def createNewStockRow (st : State) (tienda sku referencia talla : String)
    (cantidad : ℤ) : StockRow :=
  let sample := st.stock.find? (fun r => r.tienda == tienda)
  let isEcomNew := match sample with
    | some r => r.isEcom
    | none => containsECOM tienda
  { tienda := tienda, sku := sku, referencia := referencia, talla := talla,
    existencia := (cantidad : ℚ),
    adu := some (getAduForSku st.aduDf tienda sku),
    isEcom := isEcomNew,
    minObjetivo := if isEcomNew then MIN_POR_SKU_ECOM else MIN_POR_SKU_TIENDA,
    region := sample.bind (·.region),
    regionID := sample.bind (·.regionID) }

/-- The `execute_transfer` method of `TrasladosEngineCore`: seeding gate on a
missing destination key, equal split of the quantity over the origin rows and
over the destination rows (creating a seed row when absent), and a recorded
transfer with before / after snapshots. -/
def execute_transfer (st : State) (origen destino sku : String) (cantidad : ℤ)
    (referencia talla : String) : State × Bool :=
  if keyPresent st.stock destino sku = false ∧
     can_seed_to_store st destino referencia sku = false then (st, false)
  else
    let antesO := get_stock st.stock origen sku
    let antesD := get_stock st.stock destino sku
    let n := countKey st.stock origen sku
    let stock1 :=
      if n = 0 then st.stock else applyDelta st.stock origen sku (-((cantidad : ℚ) / n))
    let stock2 :=
      if keyPresent stock1 destino sku then
        applyDelta stock1 destino sku ((cantidad : ℚ) / countKey stock1 destino sku)
      else stock1 ++ [createNewStockRow st destino sku referencia talla cantidad]
    let tr : Transfer :=
      { origen := origen, destino := destino,
        antesO := antesO, despuesO := get_stock stock2 origen sku,
        antesD := antesD, despuesD := get_stock stock2 destino sku,
        cantidad := cantidad, referencia := referencia, talla := talla }
    ({ st with stock := stock2, transfers := st.transfers ++ [tr] }, true)

/-- The constructor of `TrasladosEngineCore`: assign `MinObjetivo` by store
type and zero it for the main warehouse. -/
def mkState (stock : List StockRow) (aduDf : List AduRow) (tiemposDf : List TiempoRow)
    (bodega : Option String) (noSeed allowSeedIfAdu : Bool) : State :=
  let stock1 := stock.map (fun r =>
    { r with minObjetivo := if r.isEcom then MIN_POR_SKU_ECOM else MIN_POR_SKU_TIENDA })
  let stock2 :=
    match bodega with
    | some b =>
      if b = "" then stock1
      else stock1.map (fun r => if r.tienda == b then { r with minObjetivo := 0 } else r)
    | none => stock1
  { stock := stock2, aduDf := aduDf, tiemposDf := tiemposDf, bodegaPrincipal := bodega,
    noSeed := noSeed, allowSeedIfAdu := allowSeedIfAdu, transfers := [] }

/-- One base-need record produced by `identify_base_needs`. -/
structure Need where
  tienda : String
  sku : String
  referencia : String
  talla : String
  necesita : ℤ
  isEcom : Bool
  adu : Option ℚ
deriving DecidableEq

/-- Descending-ADU order of needs (`sort_values('ADU', ascending=False)`,
NaN last). -/
def needAduGE (a b : Need) : Bool :=
  match a.adu, b.adu with
  | some x, some y => decide (y ≤ x)
  | some _, none => true
  | none, some _ => false
  | none, none => true

/-- The `identify_base_needs` method: rows under their minimum (excluding the
warehouse), need capped by remaining capacity, positive needs only, ordered by
descending ADU. -/
def identify_base_needs (st : State) : List Need :=
  let masked := st.stock.filter (fun r =>
    decide (r.existencia < (r.minObjetivo : ℚ)) &&
    (match st.bodegaPrincipal with
     | some b => if b = "" then true else r.tienda != b
     | none => true))
  let needs := masked.filterMap (fun r =>
    let necesita0 : ℤ := intTrunc ((r.minObjetivo : ℚ) - r.existencia)
    let capMax : ℚ := (MAX_STOCK_PER_SKU : ℚ) - r.existencia
    let necesita : ℤ := intTrunc (max 0 (min (necesita0 : ℚ) capMax))
    if 0 < necesita then
      some { tienda := r.tienda, sku := r.sku, referencia := r.referencia,
             talla := r.talla, necesita := necesita, isEcom := r.isEcom, adu := r.adu }
    else none)
  sortBy needAduGE needs

/-- Inner loop body of `process_base_needs`: try one ranked origin against the
remaining gap, respecting sendable quantity and destination capacity. -/
def processOriginsStep (tienda sku referencia talla : String) (acc : State × ℤ)
    (origen : String) : State × ℤ :=
  let st := acc.1
  let gap := acc.2
  if gap ≤ 0 then acc
  else
    let disponible := allowed_to_send st origen sku
    if disponible ≤ 0 then acc
    else
      let capDisponible := max 0 (MAX_STOCK_PER_SKU - get_stock st.stock tienda sku)
      let qty := min disponible (min gap capDisponible)
      if 0 < qty then
        let res := execute_transfer st origen tienda sku qty referencia talla
        if res.2 then (res.1, gap - qty) else (res.1, gap)
      else acc

/-- Per-need body of `process_base_needs`: seeding gate, target computation,
ranked origins, then the origin loop. -/
def processNeed (st : State) (need : Need) : State :=
  if keyPresent st.stock need.tienda need.sku = false ∧
     can_seed_to_store st need.tienda need.referencia need.sku = false then st
  else
    let target := calculate_target_units st need.tienda need.sku
    let origins := rank_origins_for_sku st need.sku need.tienda
    match origins with
    | [] => st
    | _ :: _ =>
      let gap := max 0 (target - get_stock st.stock need.tienda need.sku)
      (origins.foldl (processOriginsStep need.tienda need.sku need.referencia need.talla)
        (st, gap)).1

/-- The `process_base_needs` method (logging counters omitted: they do not
affect the state or the output). -/
def process_base_needs (st : State) (needs : List Need) : State := needs.foldl processNeed st

/-- The `run` method: phase 1 only (identify base needs and process them). -/
def run (st : State) : State := process_base_needs st (identify_base_needs st)

end Engine

namespace Drainer

/-- State of `BodegaDrainer`. -/
structure State where
  stock : List StockRow
  aduList : List AduRow
  bodegaPrincipal : String
  noSeed : Bool
  allowSeedIfAdu : Bool
  transfers : List Transfer
deriving DecidableEq

/-- The drainer's `get_adu`: `adu_map.get((tienda, sku), 0.0)`. -/
def get_adu (st : State) (t k : String) : ℚ := aduMapLookup st.aduList t k

/-- Exact rational warehouse grand total. -/
def getBodegaTotalQ (st : State) : ℚ :=
  ((st.stock.filter (fun r => r.tienda == st.bodegaPrincipal)).map (·.existencia)).sum

/-- The `get_bodega_total` method: truncated warehouse grand total. -/
def get_bodega_total (st : State) : ℤ := intTrunc (getBodegaTotalQ st)

/-- The drainer's `can_seed_to_store` gate, using the exact `adu_map` lookup. -/
def can_seed_to_store (st : State) (tienda referencia sku : String) : Bool :=
  if hasRefNow st.stock tienda referencia then true
  else if st.noSeed then
    st.allowSeedIfAdu && decide ((0 : ℚ) < get_adu st tienda sku)
  else true

/-- The `calculate_drain_limit` method: drain everything for a non-positive
safety ratio, otherwise clamp the ratio to `0.99` and keep that fraction. -/
def calculate_drain_limit (st : State) (safety : ℚ) : ℤ :=
  let total := get_bodega_total st
  if safety ≤ 0 then total
  else
    let clamped := max 0 (min (99 / 100) safety)
    ⌊(total : ℚ) * (1 - clamped)⌋

/-- Total `adu_map` velocity of a SKU summed over all stores
(the `sku_adu_total` accumulation of `get_skus_to_drain`). -/
def skuAduTotal (adus : List AduRow) (sku : String) : ℚ :=
  ((aduKeys adus).filterMap (fun tk =>
    if tk.2 == sku then some (aduMapLookup adus tk.1 tk.2) else none)).sum

/-- Descending order on `(sku, quantity, total ADU)` triples by total ADU. -/
def skuDrainGE (a b : String × ℤ × ℚ) : Bool := decide (b.2.2 ≤ a.2.2)

/-- The `get_skus_to_drain` method: warehouse stock grouped by SKU with each
group's truncated total and network-wide ADU, ordered by descending ADU. -/
def get_skus_to_drain (st : State) : List (String × ℤ × ℚ) :=
  let bodegaRows := st.stock.filter (fun r => r.tienda == st.bodegaPrincipal)
  let skus := firstOcc (bodegaRows.map (·.sku))
  let entries := skus.map (fun sku =>
    (sku,
     intTrunc (((bodegaRows.filter (fun r => r.sku == sku)).map (·.existencia)).sum),
     skuAduTotal st.aduList sku))
  sortBy skuDrainGE entries

/-- Order of drain destinations: category rank, then descending SKU ADU, then
store name. -/
def destLE (a b : String × ℚ) : Bool :=
  let ca := catRank (get_store_category a.1)
  let cb := catRank (get_store_category b.1)
  if ca ≠ cb then decide (ca < cb)
  else if a.2 ≠ b.2 then decide (b.2 < a.2)
  else strLE a.1 b.1

/-- The `get_destinations_for_sku` method: stores with positive ADU for the
SKU, excluding the warehouse, in drain priority order. -/
def get_destinations_for_sku (st : State) (sku : String) : List (String × ℚ) :=
  let candidates := (aduKeys st.aduList).filterMap (fun tk =>
    if tk.2 ≠ sku then none
    else if tk.1 = st.bodegaPrincipal then none
    else
      let adu := aduMapLookup st.aduList tk.1 tk.2
      if adu ≤ 0 then none else some (tk.1, adu))
  match candidates with
  | [] => []
  | _ :: _ => sortBy destLE candidates

/-- The drainer's seed row (a literal dict in the Python source). -/
def createNewStockRow (st : State) (destino sku referencia talla : String)
    (cantidad : ℤ) : StockRow :=
  { tienda := destino, sku := sku, referencia := referencia, talla := talla,
    existencia := (cantidad : ℚ),
    adu := some (get_adu st destino sku),
    isEcom := containsECOM destino,
    minObjetivo := 2,
    region := none,
    regionID := none }

/-- The drainer's `execute_transfer`: fails without mutation when the origin
key is absent; otherwise splits equally over origin and destination rows
(creating a seed row when the destination key is absent) and records the
transfer. -/
def execute_transfer (st : State) (origen destino sku : String) (cantidad : ℤ)
    (referencia talla : String) : State × Bool :=
  if keyPresent st.stock origen sku = false then (st, false)
  else
    let antesO := get_stock st.stock origen sku
    let antesD := get_stock st.stock destino sku
    let n := countKey st.stock origen sku
    let stock1 := applyDelta st.stock origen sku (-((cantidad : ℚ) / n))
    let stock2 :=
      if keyPresent stock1 destino sku then
        applyDelta stock1 destino sku ((cantidad : ℚ) / countKey stock1 destino sku)
      else stock1 ++ [createNewStockRow st destino sku referencia talla cantidad]
    let tr : Transfer :=
      { origen := origen, destino := destino,
        antesO := antesO, despuesO := get_stock stock2 origen sku,
        antesD := antesD, despuesD := get_stock stock2 destino sku,
        cantidad := cantidad, referencia := referencia, talla := talla }
    ({ st with stock := stock2, transfers := st.transfers ++ [tr] }, true)

/-- Per-destination body of the drain loop for one SKU, carrying
`(state, drained, qty_disponible)`. -/
def drainDestStep (maxDrain : ℤ) (sku referencia talla : String)
    (acc : State × ℤ × ℤ) (dest : String × ℚ) : State × ℤ × ℤ :=
  let st := acc.1
  let drained := acc.2.1
  let qtyDisp := acc.2.2
  if qtyDisp ≤ 0 then acc
  else if maxDrain ≤ drained then acc
  else if can_seed_to_store st dest.1 referencia sku = false then acc
  else
    let capDisponible := max 0 (MAX_STOCK_PER_SKU - get_stock st.stock dest.1 sku)
    if capDisponible ≤ 0 then acc
    else
      let qty := min capDisponible (min qtyDisp (maxDrain - drained))
      if 0 < qty then
        let res := execute_transfer st st.bodegaPrincipal dest.1 sku qty referencia talla
        if res.2 then (res.1, drained + qty, qtyDisp - qty) else (res.1, drained, qtyDisp)
      else acc

/-- Per-SKU body of the drain loop, carrying `(state, drained)`. The Python
`break` statements are modelled as guarded skips, which is equivalent because
`drained` never decreases. -/
def drainSkuStep (maxDrain : ℤ) (acc : State × ℤ) (entry : String × ℤ × ℚ) : State × ℤ :=
  let st := acc.1
  let drained := acc.2
  if maxDrain ≤ drained then acc
  else if entry.1.data.length < 7 then acc
  else
    let referencia : String := ⟨entry.1.data.take 7⟩
    let talla : String := ⟨entry.1.data.drop 7⟩
    let qtyDisp := min entry.2.1 (maxDrain - drained)
    if qtyDisp ≤ 0 then acc
    else
      match get_destinations_for_sku st entry.1 with
      | [] => acc
      | destinos =>
        let res := destinos.foldl (drainDestStep maxDrain entry.1 referencia talla)
          (st, drained, qtyDisp)
        (res.1, res.2.1)

/-- The `drain` method: no-op on an empty warehouse, otherwise drain SKUs in
priority order within the computed limit; returns the final state and the
recorded transfers. -/
def drain (st : State) (safety : ℚ) : State × List Transfer :=
  if get_bodega_total st ≤ 0 then (st, [])
  else
    let maxDrain := calculate_drain_limit st safety
    let skus := get_skus_to_drain st
    let res := skus.foldl (drainSkuStep maxDrain) (st, 0)
    (res.1, res.1.transfers)

/-- The constructor of `BodegaDrainer` (fresh transfer list). -/
def mkState (stock : List StockRow) (adus : List AduRow) (bodega : String)
    (noSeed allowSeedIfAdu : Bool) : State :=
  { stock := stock, aduList := adus, bodegaPrincipal := bodega,
    noSeed := noSeed, allowSeedIfAdu := allowSeedIfAdu, transfers := [] }

end Drainer

namespace Curve

/-- State of `CurveCompleter`. -/
structure State where
  stock : List StockRow
  aduList : List AduRow
  bodegaPrincipal : String
  transfers : List Transfer
deriving DecidableEq

/-- The curve completer's `get_adu`: `adu_map.get((tienda, sku), 0.0)`. -/
def get_adu (st : State) (t k : String) : ℚ := aduMapLookup st.aduList t k

/-- The curve completer's `_create_stock_row` seed row. -/
def createStockRow (st : State) (tienda sku referencia talla : String)
    (cantidad : ℤ) : StockRow :=
  { tienda := tienda, sku := sku, referencia := referencia, talla := talla,
    existencia := (cantidad : ℚ),
    adu := some (get_adu st tienda sku),
    isEcom := containsECOM tienda,
    minObjetivo := MIN_POR_SKU_TIENDA,
    region := none,
    regionID := none }

/-- The curve completer's `execute_transfer`: fails without mutation when the
origin key is absent or the origin holds less than the requested quantity,
otherwise the same equal-split mutation as the other phases. -/
def execute_transfer (st : State) (origen destino sku : String) (cantidad : ℤ)
    (referencia talla : String) : State × Bool :=
  if keyPresent st.stock origen sku = false then (st, false)
  else
    let antesO := get_stock st.stock origen sku
    if antesO < cantidad then (st, false)
    else
      let antesD := get_stock st.stock destino sku
      let n := countKey st.stock origen sku
      let stock1 := applyDelta st.stock origen sku (-((cantidad : ℚ) / n))
      let stock2 :=
        if keyPresent stock1 destino sku then
          applyDelta stock1 destino sku ((cantidad : ℚ) / countKey stock1 destino sku)
        else stock1 ++ [createStockRow st destino sku referencia talla cantidad]
      let tr : Transfer :=
        { origen := origen, destino := destino,
          antesO := antesO, despuesO := get_stock stock2 origen sku,
          antesD := antesD, despuesD := get_stock stock2 destino sku,
          cantidad := cantidad, referencia := referencia, talla := talla }
      ({ st with stock := stock2, transfers := st.transfers ++ [tr] }, true)

end Curve

/-- Rendering of the claim's coverage comparison "origin coverage exceeds the
destination's coverage by more than the safety buffer" on extended coverages
(`none` = infinite), used only to state claim C5 against the code; it is a
spec-side definition, not code. -/
def specCovExceeds (covO covD : Option ℚ) : Bool :=
  match covO, covD with
  | none, none => false
  | none, some _ => true
  | some _, none => false
  | some a, some b => decide (b + COV_BUFFER_DAYS < a)

/-- Convenience builder for a concrete stock row used in the example states. -/
def wRow (t k : String) (q : ℚ) (adu : Option ℚ) (minObj : ℤ) (ecom : Bool) : StockRow :=
  { tienda := t, sku := k, referencia := "REF", talla := "TL", existencia := q,
    adu := adu, isEcom := ecom, minObjetivo := minObj, region := none, regionID := none }

/-- Concrete engine state: warehouse `B` and store `T` both hold SKU `S`. -/
def stC1 : Engine.State :=
  { stock := [wRow "B" "S" 10 (some 0) 0 false, wRow "T" "S" 1 (some 0) 2 false],
    aduDf := [], tiemposDf := [], bodegaPrincipal := some "B",
    noSeed := true, allowSeedIfAdu := false, transfers := [] }

/-- Input stock table with two physical warehouse rows of unequal quantity for
one `(store, SKU)` key. -/
def stockC2 : List StockRow :=
  [wRow "T" "S" 0 (some 0) 0 false, wRow "B" "S" 10 (some 0) 0 false,
   wRow "B" "S" 0 (some 0) 0 false]

/-- Engine state built by the constructor over `stockC2`. -/
def stC2 : Engine.State := Engine.mkState stockC2 [] [] (some "B") true false

/-- ADU table whose single SKU key is stored in non-normalized form. -/
def adusC3 : List AduRow := [{ tienda := "T", sku := "x", adu := 1 }]

/-- Engine state over an empty stock table and the `adusC3` ADU table, with
the no-seed policy on and the allow-if-demand exception on. -/
def stC3e : Engine.State :=
  { stock := [], aduDf := adusC3, tiemposDf := [], bodegaPrincipal := none,
    noSeed := true, allowSeedIfAdu := true, transfers := [] }

/-- Drainer state over the same stock table, ADU table and flags as `stC3e`. -/
def stC3d : Drainer.State :=
  { stock := [], aduList := adusC3, bodegaPrincipal := "B",
    noSeed := true, allowSeedIfAdu := true, transfers := [] }

/-- Engine state matching `stC3d0` with an empty ADU table. -/
def stC3e0 : Engine.State :=
  { stock := [], aduDf := [], tiemposDf := [], bodegaPrincipal := none,
    noSeed := true, allowSeedIfAdu := true, transfers := [] }

/-- Drainer state matching `stC3e0` with an empty ADU table. -/
def stC3d0 : Drainer.State :=
  { stock := [], aduList := [], bodegaPrincipal := "B",
    noSeed := true, allowSeedIfAdu := true, transfers := [] }

/-- Input stock table of the C4 scenario: the warehouse holds 100 units of
SKU `X` with ADU 0 and store `T` holds 2 units with ADU 1. -/
def stockC4 : List StockRow :=
  [wRow "B" "X" 100 (some 0) 0 false, wRow "T" "X" 2 (some 1) 0 false]

/-- Engine state built by the constructor over `stockC4` with warehouse `B`. -/
def stC4 : Engine.State := Engine.mkState stockC4 [] [] (some "B") true false

/-- Engine state where the candidate origin `O` has finite coverage 20 days
and the destination `D` has infinite coverage (ADU 0). -/
def stC5 : Engine.State :=
  { stock := [wRow "O" "S" 20 (some 1) 2 false, wRow "D" "S" 5 (some 0) 2 false],
    aduDf := [], tiemposDf := [], bodegaPrincipal := none,
    noSeed := true, allowSeedIfAdu := false, transfers := [] }

/-- Engine state whose origin `O` owns two physical rows (6 and 2 units) of
SKU `S` and whose destination `D` owns one row. -/
def stC6 : Engine.State :=
  { stock := [wRow "O" "S" 6 (some 0) 2 false, wRow "O" "S" 2 (some 0) 2 false,
              wRow "D" "S" 1 (some 0) 2 false],
    aduDf := [], tiemposDf := [], bodegaPrincipal := none,
    noSeed := true, allowSeedIfAdu := false, transfers := [] }

/-- Engine state where the warehouse `B` is a ranked origin for store `T`. -/
def stC7 : Engine.State :=
  { stock := [wRow "B" "S" 10 (some 0) 0 false, wRow "T" "S" 0 (some 0) 2 false],
    aduDf := [], tiemposDf := [], bodegaPrincipal := some "B",
    noSeed := true, allowSeedIfAdu := false, transfers := [] }

/-- Drainer state with 1000 warehouse units, used against the drain-limit
formula at a safety ratio above the clamp. -/
def stC8 : Drainer.State :=
  Drainer.mkState [wRow "B" "SKU8888" 1000 (some 0) 0 false] [] "B" true false

/-- Drainer state with 100 warehouse units of one SKU and one selling store. -/
def stC8w : Drainer.State :=
  Drainer.mkState [wRow "B" "SKUABCD" 100 (some 0) 0 false]
    [{ tienda := "T", sku := "SKUABCD", adu := 2 }] "B" true false

/-- Engine state whose only stock is at origin `O`; destination `T` holds
nothing and has no sales history. -/
def stC9 : Engine.State :=
  { stock := [wRow "O" "S" 5 (some 0) 2 false], aduDf := [], tiemposDf := [],
    bodegaPrincipal := none, noSeed := true, allowSeedIfAdu := false, transfers := [] }

/-- Engine state where the destination `T` holds SKU `S` but the origin `O`
has no stock row at all. -/
def stC10 : Engine.State :=
  { stock := [wRow "T" "S" 1 (some 0) 2 false], aduDf := [], tiemposDf := [],
    bodegaPrincipal := none, noSeed := true, allowSeedIfAdu := false, transfers := [] }

theorem keyMatch_true_iff (t k : String) (r : StockRow) :
    keyMatch t k r = true ↔ r.tienda = t ∧ r.sku = k := by
  simp [keyMatch]

theorem keyMatch_existencia (t k : String) (r : StockRow) (x : ℚ) :
    keyMatch t k { r with existencia := x } = keyMatch t k r := rfl

theorem applyDelta_cons (r : StockRow) (s : List StockRow) (t k : String) (d : ℚ) :
    applyDelta (r :: s) t k d =
      (if keyMatch t k r then { r with existencia := r.existencia + d } else r) ::
        applyDelta s t k d := by
  simp [applyDelta]

theorem countKey_cons (r : StockRow) (s : List StockRow) (t k : String) :
    countKey (r :: s) t k = (if keyMatch t k r then 1 else 0) + countKey s t k := by
  rw [countKey, countKey, List.filter_cons]
  split <;> simp [Nat.add_comm]

theorem getStockQ_cons (r : StockRow) (s : List StockRow) (t k : String) :
    getStockQ (r :: s) t k = (if keyMatch t k r then r.existencia else 0) + getStockQ s t k := by
  rw [getStockQ, getStockQ, List.filter_cons]
  split <;> simp

theorem totalQ_cons (r : StockRow) (s : List StockRow) :
    totalQ (r :: s) = r.existencia + totalQ s := by
  simp [totalQ]

theorem keyPresent_cons (r : StockRow) (s : List StockRow) (t k : String) :
    keyPresent (r :: s) t k = (keyMatch t k r || keyPresent s t k) := by
  simp [keyPresent]

theorem totalQ_append (s s2 : List StockRow) : totalQ (s ++ s2) = totalQ s + totalQ s2 := by
  simp [totalQ]

theorem getStockQ_append (s s2 : List StockRow) (t k : String) :
    getStockQ (s ++ s2) t k = getStockQ s t k + getStockQ s2 t k := by
  simp [getStockQ, List.filter_append]

theorem getStockQ_singleton (r : StockRow) (t k : String) :
    getStockQ [r] t k = if keyMatch t k r then r.existencia else 0 := by
  rw [getStockQ, List.filter_cons]
  split <;> simp

theorem countKey_applyDelta (s : List StockRow) (t k : String) (d : ℚ) (t2 k2 : String) :
    countKey (applyDelta s t k d) t2 k2 = countKey s t2 k2 := by
  induction s with
  | nil => rfl
  | cons r s ih =>
    rw [applyDelta_cons, countKey_cons, countKey_cons, ih]
    by_cases h : keyMatch t k r = true <;> simp [h, keyMatch_existencia]

theorem keyPresent_applyDelta (s : List StockRow) (t k : String) (d : ℚ) (t2 k2 : String) :
    keyPresent (applyDelta s t k d) t2 k2 = keyPresent s t2 k2 := by
  induction s with
  | nil => rfl
  | cons r s ih =>
    rw [applyDelta_cons, keyPresent_cons, keyPresent_cons, ih]
    by_cases h : keyMatch t k r = true <;> simp [h, keyMatch_existencia]

theorem totalQ_applyDelta (s : List StockRow) (t k : String) (d : ℚ) :
    totalQ (applyDelta s t k d) = totalQ s + countKey s t k * d := by
  induction s with
  | nil => simp [totalQ, applyDelta, countKey]
  | cons r s ih =>
    rw [applyDelta_cons, totalQ_cons, totalQ_cons, ih, countKey_cons]
    by_cases h : keyMatch t k r = true <;> simp [h] <;> push_cast <;> ring

theorem getStockQ_applyDelta_same (s : List StockRow) (t k : String) (d : ℚ) :
    getStockQ (applyDelta s t k d) t k = getStockQ s t k + countKey s t k * d := by
  induction s with
  | nil => simp [getStockQ, applyDelta, countKey]
  | cons r s ih =>
    rw [applyDelta_cons, getStockQ_cons, getStockQ_cons, ih, countKey_cons]
    by_cases h : keyMatch t k r = true <;> simp [h, keyMatch_existencia] <;> push_cast <;> ring

theorem getStockQ_applyDelta_ne (s : List StockRow) (t k : String) (d : ℚ) (t2 k2 : String)
    (h : ¬(t2 = t ∧ k2 = k)) :
    getStockQ (applyDelta s t k d) t2 k2 = getStockQ s t2 k2 := by
  induction s with
  | nil => rfl
  | cons r s ih =>
    rw [applyDelta_cons, getStockQ_cons, getStockQ_cons, ih]
    by_cases h1 : keyMatch t k r = true
    · have h2 : keyMatch t2 k2 r = false := by
        rcases (keyMatch_true_iff t k r).1 h1 with ⟨ht, hk⟩
        cases hkm : keyMatch t2 k2 r
        · rfl
        · rcases (keyMatch_true_iff t2 k2 r).1 hkm with ⟨ht2, hk2⟩
          exact absurd ⟨ht2 ▸ ht, hk2 ▸ hk⟩ h
      simp [h1, keyMatch_existencia, h2]
    · simp [h1, keyMatch_existencia]

theorem keyPresent_iff_countKey (s : List StockRow) (t k : String) :
    keyPresent s t k = true ↔ countKey s t k ≠ 0 := by
  induction s with
  | nil => simp [keyPresent, countKey]
  | cons r s ih =>
    rw [keyPresent_cons, countKey_cons]
    by_cases h : keyMatch t k r = true <;> simp [h, ih]

theorem mem_insertSorted {α : Type} (le : α → α → Bool) (a b : α) (l : List α) :
    b ∈ insertSorted le a l ↔ b = a ∨ b ∈ l := by
  induction l with
  | nil => simp [insertSorted]
  | cons c l ih =>
    rw [insertSorted]
    split
    · simp
    · simp only [List.mem_cons, ih]
      tauto

theorem mem_sortBy {α : Type} (le : α → α → Bool) (b : α) (l : List α) :
    b ∈ sortBy le l ↔ b ∈ l := by
  induction l with
  | nil => simp [sortBy]
  | cons a l ih => rw [sortBy, mem_insertSorted, ih, List.mem_cons]

theorem engine_exec_conserves (st : Engine.State) (o d sku : String) (c : ℤ)
    (ref talla : String) (h : keyPresent st.stock o sku = true) :
    totalQ (Engine.execute_transfer st o d sku c ref talla).1.stock = totalQ st.stock := by
  have hn : countKey st.stock o sku ≠ 0 := (keyPresent_iff_countKey _ _ _).1 h
  have hnQ : ((countKey st.stock o sku : ℚ)) ≠ 0 := Nat.cast_ne_zero.mpr hn
  unfold Engine.execute_transfer
  split
  · rfl
  · simp only [if_neg hn]
    by_cases hd : keyPresent (applyDelta st.stock o sku (-((c : ℚ) / (countKey st.stock o sku : ℚ)))) d sku
    · rw [if_pos hd]
      have hm : countKey st.stock d sku ≠ 0 := by
        rw [keyPresent_applyDelta] at hd
        exact (keyPresent_iff_countKey _ _ _).1 hd
      have hmQ : ((countKey st.stock d sku : ℚ)) ≠ 0 := Nat.cast_ne_zero.mpr hm
      rw [totalQ_applyDelta, countKey_applyDelta, totalQ_applyDelta,
        mul_div_cancel₀ _ hmQ, mul_neg, mul_div_cancel₀ _ hnQ]
      ring
    · rw [if_neg hd, totalQ_append, totalQ_applyDelta, mul_neg, mul_div_cancel₀ _ hnQ,
        totalQ_cons,
        show (Engine.createNewStockRow st d sku ref talla c).existencia = (c : ℚ) from rfl,
        show totalQ ([] : List StockRow) = 0 from rfl]
      ring

theorem engine_exec_deltas (st : Engine.State) (o d sku : String) (c : ℤ)
    (ref talla : String) (h : keyPresent st.stock o sku = true)
    (hres : (Engine.execute_transfer st o d sku c ref talla).2 = true) (hne : o ≠ d) :
    getStockQ (Engine.execute_transfer st o d sku c ref talla).1.stock o sku =
      getStockQ st.stock o sku - c ∧
    getStockQ (Engine.execute_transfer st o d sku c ref talla).1.stock d sku =
      getStockQ st.stock d sku + c := by
  have hn : countKey st.stock o sku ≠ 0 := (keyPresent_iff_countKey _ _ _).1 h
  have hnQ : ((countKey st.stock o sku : ℚ)) ≠ 0 := Nat.cast_ne_zero.mpr hn
  have hod : ¬(o = d ∧ sku = sku) := fun hc => hne hc.1
  have hdo : ¬(d = o ∧ sku = sku) := fun hc => hne hc.1.symm
  by_cases hb : keyPresent st.stock d sku = false ∧
      Engine.can_seed_to_store st d ref sku = false
  · exfalso
    unfold Engine.execute_transfer at hres
    rw [if_pos hb] at hres
    simp at hres
  · unfold Engine.execute_transfer
    rw [if_neg hb]
    simp only [if_neg hn]
    by_cases hd : keyPresent
        (applyDelta st.stock o sku (-((c : ℚ) / (countKey st.stock o sku : ℚ)))) d sku
    · rw [if_pos hd]
      have hm : countKey st.stock d sku ≠ 0 := by
        rw [keyPresent_applyDelta] at hd
        exact (keyPresent_iff_countKey _ _ _).1 hd
      have hmQ : ((countKey st.stock d sku : ℚ)) ≠ 0 := Nat.cast_ne_zero.mpr hm
      constructor
      · rw [getStockQ_applyDelta_ne _ _ _ _ _ _ hod, getStockQ_applyDelta_same,
          mul_neg, mul_div_cancel₀ _ hnQ]
        ring
      · rw [getStockQ_applyDelta_same, countKey_applyDelta,
          getStockQ_applyDelta_ne _ _ _ _ _ _ hdo, mul_div_cancel₀ _ hmQ]
    · rw [if_neg hd]
      have hrowO : keyMatch o sku (Engine.createNewStockRow st d sku ref talla c) = false := by
        have htd : (Engine.createNewStockRow st d sku ref talla c).tienda = d := rfl
        cases hkm : keyMatch o sku (Engine.createNewStockRow st d sku ref talla c)
        · rfl
        · rcases (keyMatch_true_iff _ _ _).1 hkm with ⟨ht, _⟩
          rw [htd] at ht
          exact absurd ht.symm hne
      have hrowD : keyMatch d sku (Engine.createNewStockRow st d sku ref talla c) = true :=
        (keyMatch_true_iff _ _ _).2 ⟨rfl, rfl⟩
      constructor
      · rw [getStockQ_append, getStockQ_singleton, if_neg (by simp [hrowO]),
          getStockQ_applyDelta_same, mul_neg, mul_div_cancel₀ _ hnQ]
        ring
      · rw [getStockQ_append, getStockQ_singleton, if_pos (by simp [hrowD]),
          getStockQ_applyDelta_ne _ _ _ _ _ _ hdo,
          show (Engine.createNewStockRow st d sku ref talla c).existencia = (c : ℚ) from rfl]

theorem drainer_exec_conserves (st : Drainer.State) (o d sku : String) (c : ℤ)
    (ref talla : String) :
    totalQ (Drainer.execute_transfer st o d sku c ref talla).1.stock = totalQ st.stock := by
  unfold Drainer.execute_transfer
  split
  · rfl
  · rename_i hpres
    have h : keyPresent st.stock o sku = true := by
      revert hpres
      cases keyPresent st.stock o sku <;> simp
    have hn : countKey st.stock o sku ≠ 0 := (keyPresent_iff_countKey _ _ _).1 h
    have hnQ : ((countKey st.stock o sku : ℚ)) ≠ 0 := Nat.cast_ne_zero.mpr hn
    simp only []
    by_cases hd : keyPresent (applyDelta st.stock o sku (-((c : ℚ) / (countKey st.stock o sku : ℚ)))) d sku
    · rw [if_pos hd]
      have hm : countKey st.stock d sku ≠ 0 := by
        rw [keyPresent_applyDelta] at hd
        exact (keyPresent_iff_countKey _ _ _).1 hd
      have hmQ : ((countKey st.stock d sku : ℚ)) ≠ 0 := Nat.cast_ne_zero.mpr hm
      rw [totalQ_applyDelta, countKey_applyDelta, totalQ_applyDelta,
        mul_div_cancel₀ _ hmQ, mul_neg, mul_div_cancel₀ _ hnQ]
      ring
    · rw [if_neg hd, totalQ_append, totalQ_applyDelta, mul_neg, mul_div_cancel₀ _ hnQ,
        totalQ_cons,
        show (Drainer.createNewStockRow st d sku ref talla c).existencia = (c : ℚ) from rfl,
        show totalQ ([] : List StockRow) = 0 from rfl]
      ring

theorem curve_exec_conserves (st : Curve.State) (o d sku : String) (c : ℤ)
    (ref talla : String) :
    totalQ (Curve.execute_transfer st o d sku c ref talla).1.stock = totalQ st.stock := by
  unfold Curve.execute_transfer
  split
  · rfl
  · rename_i hpres
    have h : keyPresent st.stock o sku = true := by
      revert hpres
      cases keyPresent st.stock o sku <;> simp
    have hn : countKey st.stock o sku ≠ 0 := (keyPresent_iff_countKey _ _ _).1 h
    have hnQ : ((countKey st.stock o sku : ℚ)) ≠ 0 := Nat.cast_ne_zero.mpr hn
    simp only []
    split
    · rfl
    · simp only []
      by_cases hd : keyPresent (applyDelta st.stock o sku (-((c : ℚ) / (countKey st.stock o sku : ℚ)))) d sku
      · rw [if_pos hd]
        have hm : countKey st.stock d sku ≠ 0 := by
          rw [keyPresent_applyDelta] at hd
          exact (keyPresent_iff_countKey _ _ _).1 hd
        have hmQ : ((countKey st.stock d sku : ℚ)) ≠ 0 := Nat.cast_ne_zero.mpr hm
        rw [totalQ_applyDelta, countKey_applyDelta, totalQ_applyDelta,
          mul_div_cancel₀ _ hmQ, mul_neg, mul_div_cancel₀ _ hnQ]
        ring
      · rw [if_neg hd, totalQ_append, totalQ_applyDelta, mul_neg, mul_div_cancel₀ _ hnQ,
          totalQ_cons,
          show (Curve.createStockRow st d sku ref talla c).existencia = (c : ℚ) from rfl,
          show totalQ ([] : List StockRow) = 0 from rfl]
        ring

/-- C1: every transfer executed by a phase conserves the total `Existencia`
over the stock table: the base-needs engine conserves it whenever the origin
key exists (which phase 1 guarantees, since ranked origins come from the
index), decrementing the origin's logical stock by exactly the transferred
quantity and incrementing the destination's (or a newly created row's) by the
same quantity; the drainer's and the curve completer's transfer operations
conserve the total unconditionally (they refuse to act on a missing origin). -/
theorem traslados_conservation :
    (∀ (st : Engine.State) (o d sku : String) (c : ℤ) (ref talla : String),
      keyPresent st.stock o sku = true →
      totalQ (Engine.execute_transfer st o d sku c ref talla).1.stock = totalQ st.stock ∧
      ((Engine.execute_transfer st o d sku c ref talla).2 = true → o ≠ d →
        getStockQ (Engine.execute_transfer st o d sku c ref talla).1.stock o sku =
          getStockQ st.stock o sku - c ∧
        getStockQ (Engine.execute_transfer st o d sku c ref talla).1.stock d sku =
          getStockQ st.stock d sku + c)) ∧
    (∀ (st : Drainer.State) (o d sku : String) (c : ℤ) (ref talla : String),
      totalQ (Drainer.execute_transfer st o d sku c ref talla).1.stock = totalQ st.stock) ∧
    (∀ (st : Curve.State) (o d sku : String) (c : ℤ) (ref talla : String),
      totalQ (Curve.execute_transfer st o d sku c ref talla).1.stock = totalQ st.stock) :=
  ⟨fun st o d sku c ref talla h =>
    ⟨engine_exec_conserves st o d sku c ref talla h,
     fun hres hne => engine_exec_deltas st o d sku c ref talla h hres hne⟩,
   drainer_exec_conserves, curve_exec_conserves⟩

/-- Witness for C1: a concrete warehouse-to-store transfer conserves the
total. -/
theorem traslados_conservation_witness :
    totalQ (Engine.execute_transfer stC1 "B" "T" "S" 2 "REF" "TL").1.stock =
      totalQ stC1.stock :=
  (traslados_conservation.1 stC1 "B" "T" "S" 2 "REF" "TL" (by decide)).1

/-- C9: when the destination holds no row for the item and the seeding gate
denies the introduction, the base-needs `execute_transfer` returns failure
with the state (stock and transfer list) completely unchanged. -/
theorem execute_rejects_denied_seed :
    ∀ (st : Engine.State) (o d sku : String) (c : ℤ) (ref talla : String),
      keyPresent st.stock d sku = false →
      Engine.can_seed_to_store st d ref sku = false →
      Engine.execute_transfer st o d sku c ref talla = (st, false) := by
  intro st o d sku c ref talla h1 h2
  unfold Engine.execute_transfer
  rw [if_pos ⟨h1, h2⟩]

/-- Witness for C9: a concrete blocked seeding attempt leaves the state
unchanged and reports failure. -/
theorem execute_rejects_denied_seed_witness :
    Engine.execute_transfer stC9 "O" "T" "S" 3 "REF" "TL" = (stC9, false) :=
  execute_rejects_denied_seed stC9 "O" "T" "S" 3 "REF" "TL" (by decide) (by decide)

/-- C10: calling the base-needs `execute_transfer` with an origin key that has
no stock row, while the destination exists (or seeding is allowed), succeeds,
leaves the origin side untouched, increments the destination by the full
quantity, records a transfer, and therefore inflates the table's total by the
transferred quantity; no guard checks the origin. -/
theorem execute_missing_origin_inflates_total :
    ∀ (st : Engine.State) (o d sku : String) (c : ℤ) (ref talla : String),
      keyPresent st.stock o sku = false →
      (keyPresent st.stock d sku = true ∨ Engine.can_seed_to_store st d ref sku = true) →
      (Engine.execute_transfer st o d sku c ref talla).2 = true ∧
      totalQ (Engine.execute_transfer st o d sku c ref talla).1.stock = totalQ st.stock + c ∧
      (Engine.execute_transfer st o d sku c ref talla).1.transfers.length =
        st.transfers.length + 1 ∧
      getStockQ (Engine.execute_transfer st o d sku c ref talla).1.stock d sku =
        getStockQ st.stock d sku + c := by
  intro st o d sku c ref talla ho hd
  have hn : countKey st.stock o sku = 0 := by
    by_contra hc
    have h2 := (keyPresent_iff_countKey st.stock o sku).2 hc
    rw [ho] at h2
    exact absurd h2 (by decide)
  have hb : ¬(keyPresent st.stock d sku = false ∧
      Engine.can_seed_to_store st d ref sku = false) := by
    intro hc
    rcases hd with h | h
    · rw [h] at hc
      exact absurd hc.1 (by decide)
    · rw [h] at hc
      exact absurd hc.2 (by decide)
  unfold Engine.execute_transfer
  rw [if_neg hb]
  simp only [if_pos hn]
  by_cases hdp : keyPresent st.stock d sku = true
  · rw [if_pos hdp]
    have hm : countKey st.stock d sku ≠ 0 := (keyPresent_iff_countKey _ _ _).1 hdp
    have hmQ : ((countKey st.stock d sku : ℚ)) ≠ 0 := Nat.cast_ne_zero.mpr hm
    refine ⟨by trivial, ?_, ?_, ?_⟩
    · rw [totalQ_applyDelta, mul_div_cancel₀ _ hmQ]
    · simp
    · rw [getStockQ_applyDelta_same, mul_div_cancel₀ _ hmQ]
  · rw [if_neg hdp]
    have hrowD : keyMatch d sku (Engine.createNewStockRow st d sku ref talla c) = true :=
      (keyMatch_true_iff _ _ _).2 ⟨rfl, rfl⟩
    refine ⟨by trivial, ?_, ?_, ?_⟩
    · rw [totalQ_append, totalQ_cons,
        show (Engine.createNewStockRow st d sku ref talla c).existencia = (c : ℚ) from rfl,
        show totalQ ([] : List StockRow) = 0 from rfl]
      ring
    · simp
    · rw [getStockQ_append, getStockQ_singleton, if_pos (by simp [hrowD]),
        show (Engine.createNewStockRow st d sku ref talla c).existencia = (c : ℚ) from rfl]

/-- Witness for C10: a transfer from a nonexistent origin into `stC10`
succeeds and creates stock out of nothing. -/
theorem execute_missing_origin_inflates_total_witness :
    (Engine.execute_transfer stC10 "O" "T" "S" 7 "REF" "TL").2 = true ∧
    totalQ (Engine.execute_transfer stC10 "O" "T" "S" 7 "REF" "TL").1.stock =
      totalQ stC10.stock + 7 ∧
    (Engine.execute_transfer stC10 "O" "T" "S" 7 "REF" "TL").1.transfers.length =
      stC10.transfers.length + 1 ∧
    getStockQ (Engine.execute_transfer stC10 "O" "T" "S" 7 "REF" "TL").1.stock "T" "S" =
      getStockQ stC10.stock "T" "S" + 7 :=
  execute_missing_origin_inflates_total stC10 "O" "T" "S" 7 "REF" "TL" (by decide)
    (Or.inl (by decide))

theorem mem_forceFront (bodega : Option String) (l : List String) (x : String) :
    x ∈ Engine.forceFront bodega l ↔ x ∈ l := by
  cases bodega with
  | none => rfl
  | some b =>
    simp only [Engine.forceFront]
    by_cases hcond : b ≠ "" ∧ b ∈ l
    · rw [if_pos hcond]
      constructor
      · intro hx
        rcases List.mem_cons.1 hx with h | h
        · exact h ▸ hcond.2
        · exact List.erase_subset _ _ h
      · intro hx
        by_cases hxb : x = b
        · exact hxb ▸ List.mem_cons_self _ _
        · exact List.mem_cons.2 (Or.inr ((List.mem_erase_of_ne hxb).2 hx))
    · rw [if_neg hcond]

theorem head_forceFront (b : String) (l : List String) (hne : b ≠ "") (hmem : b ∈ l) :
    (Engine.forceFront (some b) l).head? = some b := by
  simp only [Engine.forceFront]
  rw [if_pos ⟨hne, hmem⟩]
  rfl

theorem mem_rank_origins (st : Engine.State) (sku destTienda t : String)
    (h : t ∈ Engine.rank_origins_for_sku st sku destTienda) :
    t ∈ Engine.rankCandidates st sku destTienda := by
  unfold Engine.rank_origins_for_sku at h
  cases hcl : Engine.rankCandidates st sku destTienda with
  | nil =>
    rw [hcl] at h
    simp at h
  | cons c cs =>
    rw [hcl] at h
    simp only [] at h
    rw [mem_forceFront] at h
    rcases List.mem_map.1 h with ⟨e, he, het⟩
    rw [mem_sortBy] at he
    rcases List.mem_map.1 he with ⟨x, hx, hxe⟩
    have : t = x := by rw [← het, ← hxe]; rfl
    exact this ▸ hx

theorem rankCandidates_elim (st : Engine.State) (sku destTienda t : String)
    (h : t ∈ Engine.rankCandidates st sku destTienda) :
    ¬ Engine.allowed_to_send st t sku ≤ 0 ∧ t ≠ destTienda ∧
    (∀ co cd : ℚ, Engine.get_cobertura st t sku = some co →
      Engine.get_cobertura st destTienda sku = some cd →
      ¬ co ≤ cd + COV_BUFFER_DAYS) := by
  unfold Engine.rankCandidates at h
  rcases List.mem_filterMap.1 h with ⟨tk, _, hf⟩
  by_cases h1 : tk.2 ≠ sku
  · rw [if_pos h1] at hf
    exact absurd hf (by simp)
  · rw [if_neg h1] at hf
    by_cases h2 : tk.1 = destTienda
    · rw [if_pos h2] at hf
      exact absurd hf (by simp)
    · rw [if_neg h2] at hf
      by_cases h3 : Engine.allowed_to_send st tk.1 sku ≤ 0
      · rw [if_pos h3] at hf
        exact absurd hf (by simp)
      · rw [if_neg h3] at hf
        push_neg at h1
        revert hf
        rcases hco : Engine.get_cobertura st tk.1 sku with _ | covO <;>
          rcases hcd : Engine.get_cobertura st destTienda sku with _ | covD <;>
          intro hf
        · simp only [Option.some.injEq] at hf
          subst hf
          exact ⟨h3, h2, fun co cd hco2 _ => by rw [hco] at hco2; cases hco2⟩
        · simp only [Option.some.injEq] at hf
          subst hf
          exact ⟨h3, h2, fun co cd hco2 _ => by rw [hco] at hco2; cases hco2⟩
        · simp only [Option.some.injEq] at hf
          subst hf
          exact ⟨h3, h2, fun co cd _ hcd2 => by cases hcd2⟩
        · simp only [] at hf
          by_cases h4 : covO ≤ covD + COV_BUFFER_DAYS
          · rw [if_pos h4] at hf
            exact absurd hf (by simp)
          · rw [if_neg h4] at hf
            simp only [Option.some.injEq] at hf
            subst hf
            refine ⟨h3, h2, fun co cd hco2 hcd2 => ?_⟩
            rw [hco] at hco2
            simp only [Option.some.injEq] at hco2 hcd2
            subst hco2
            subst hcd2
            exact h4

/-- C5 (amended): every origin returned by `rank_origins_for_sku` holds the
item with positive sendable quantity, differs from the destination, and — when
both its own and the destination's coverages are finite — exceeds the
destination's coverage by more than the safety buffer; when either coverage is
infinite the filter does not apply and the origin is admitted regardless. -/
theorem rank_origins_sound :
    ∀ (st : Engine.State) (sku destTienda t : String),
      t ∈ Engine.rank_origins_for_sku st sku destTienda →
      0 < Engine.allowed_to_send st t sku ∧ t ≠ destTienda ∧
      (∀ co cd : ℚ, Engine.get_cobertura st t sku = some co →
        Engine.get_cobertura st destTienda sku = some cd →
        cd + COV_BUFFER_DAYS < co) := by
  intro st sku destTienda t h
  rcases rankCandidates_elim st sku destTienda t (mem_rank_origins st sku destTienda t h)
    with ⟨h1, h2, h3⟩
  exact ⟨lt_of_not_le h1, h2, fun co cd hco hcd => lt_of_not_le (h3 co cd hco hcd)⟩

/-- C7: whenever the designated central warehouse appears among the ranked
origins, it occupies the first position of the returned order. -/
theorem warehouse_first_in_ranking :
    ∀ (st : Engine.State) (sku destTienda b : String),
      st.bodegaPrincipal = some b → b ≠ "" →
      b ∈ Engine.rank_origins_for_sku st sku destTienda →
      (Engine.rank_origins_for_sku st sku destTienda).head? = some b := by
  intro st sku destTienda b hb hne hmem
  unfold Engine.rank_origins_for_sku at hmem ⊢
  cases hcl : Engine.rankCandidates st sku destTienda with
  | nil =>
    rw [hcl] at hmem
    simp at hmem
  | cons c cs =>
    rw [hcl] at hmem
    simp only [] at hmem ⊢
    rw [hb] at hmem ⊢
    exact head_forceFront b _ hne ((mem_forceFront (some b) _ b).1 hmem)

theorem rankC5_eval : Engine.rank_origins_for_sku stC5 "S" "D" = ["O"] := by
  norm_num +decide [Engine.rank_origins_for_sku, Engine.rankCandidates, Engine.rankEntryFor,
    Engine.forceFront, Engine.rankLE, Engine.allowed_to_send, Engine.get_cobertura,
    Engine.isBodega, Engine.check_same_region, Engine.delivery_priority,
    Engine.delivery_days, Engine.findTiempo, firstRow, firstOcc, keyMatch, keyPresent,
    countKey, getStockQ, get_stock, intTrunc, sortBy, insertSorted, stC5, wRow, List.filterMap_cons, List.filterMap_nil, List.find?_cons, List.find?_nil,
    List.filter_cons, List.filter_nil,
    ORIGIN_MIN_COV_DAYS, ORIGIN_MIN_COV_ECOM, MIN_POR_SKU_TIENDA, COV_BUFFER_DAYS]

/-- Counterexample to C5 as stated: in `stC5` the destination's coverage is
infinite, yet origin `O` (finite coverage 20 days) is returned, although its
coverage does not exceed the destination's infinite coverage by more than the
buffer. -/
theorem rank_origins_infinite_coverage_included :
    Engine.rank_origins_for_sku stC5 "S" "D" = ["O"] ∧
    Engine.get_cobertura stC5 "D" "S" = none ∧
    specCovExceeds (Engine.get_cobertura stC5 "O" "S") (Engine.get_cobertura stC5 "D" "S")
      = false := by
  refine ⟨rankC5_eval, ?_, ?_⟩
  · norm_num +decide [Engine.get_cobertura, firstRow, stC5, wRow, keyMatch,
      List.find?_cons, List.find?_nil]
  · norm_num +decide [specCovExceeds, Engine.get_cobertura, firstRow, stC5, wRow, keyMatch,
      get_stock, getStockQ, intTrunc, List.find?_cons, List.find?_nil,
      List.filter_cons, List.filter_nil]

/-- Witness for C5 (amended): origin `O` returned for `stC5` indeed has
positive sendable quantity and differs from the destination. -/
theorem rank_origins_sound_witness :
    0 < Engine.allowed_to_send stC5 "O" "S" ∧ "O" ≠ "D" ∧
    (∀ co cd : ℚ, Engine.get_cobertura stC5 "O" "S" = some co →
      Engine.get_cobertura stC5 "D" "S" = some cd →
      cd + COV_BUFFER_DAYS < co) :=
  rank_origins_sound stC5 "S" "D" "O" (by rw [rankC5_eval]; exact List.mem_singleton.2 rfl)

theorem rankC7_eval : Engine.rank_origins_for_sku stC7 "S" "T" = ["B"] := by
  norm_num +decide [Engine.rank_origins_for_sku, Engine.rankCandidates, Engine.rankEntryFor,
    Engine.forceFront, Engine.rankLE, Engine.allowed_to_send, Engine.get_cobertura,
    Engine.isBodega, Engine.check_same_region, Engine.delivery_priority,
    Engine.delivery_days, Engine.findTiempo, firstRow, firstOcc, keyMatch, keyPresent,
    countKey, getStockQ, get_stock, intTrunc, sortBy, insertSorted, stC7, wRow, List.filterMap_cons, List.filterMap_nil, List.find?_cons, List.find?_nil,
    List.filter_cons, List.filter_nil,
    ORIGIN_MIN_COV_DAYS, ORIGIN_MIN_COV_ECOM, MIN_POR_SKU_TIENDA, COV_BUFFER_DAYS]

/-- Witness for C7: in `stC7` the warehouse `B` is among the ranked origins
and heads the returned list. -/
theorem warehouse_first_in_ranking_witness :
    (Engine.rank_origins_for_sku stC7 "S" "T").head? = some "B" :=
  warehouse_first_in_ranking stC7 "S" "T" "B" rfl (by decide)
    (by rw [rankC7_eval]; exact List.mem_singleton.2 rfl)

/-- C6 (amended): when both the origin and the destination key exist, an
executed transfer splits the quantity EQUALLY over the physical rows of each
key — every origin row is decremented by `quantity / origin row count` and
every destination row incremented by `quantity / destination row count` —
rather than proportionally to each row's current quantity. -/
theorem split_is_equal :
    ∀ (st : Engine.State) (o d sku : String) (c : ℤ) (ref talla : String),
      keyPresent st.stock o sku = true →
      keyPresent st.stock d sku = true →
      (Engine.execute_transfer st o d sku c ref talla).2 = true ∧
      (Engine.execute_transfer st o d sku c ref talla).1.stock =
        applyDelta (applyDelta st.stock o sku (-((c : ℚ) / (countKey st.stock o sku : ℚ))))
          d sku ((c : ℚ) / (countKey st.stock d sku : ℚ)) := by
  intro st o d sku c ref talla ho hd
  have hn : countKey st.stock o sku ≠ 0 := (keyPresent_iff_countKey _ _ _).1 ho
  have hb : ¬(keyPresent st.stock d sku = false ∧
      Engine.can_seed_to_store st d ref sku = false) := by
    intro hc
    rw [hd] at hc
    exact absurd hc.1 (by decide)
  have hd2 : keyPresent
      (applyDelta st.stock o sku (-((c : ℚ) / (countKey st.stock o sku : ℚ)))) d sku = true := by
    rw [keyPresent_applyDelta]
    exact hd
  unfold Engine.execute_transfer
  rw [if_neg hb]
  simp only [if_neg hn]
  rw [if_pos hd2, countKey_applyDelta]
  exact ⟨by trivial, rfl⟩

/-- Counterexample to C6 as stated: in `stC6` the origin rows hold 6 and 2
units; transferring 4 units leaves them at 4 and 0 (equal split of 2 each),
while a split proportional to current quantities would have left the first
row at 6 - 4·(6/8) = 3. -/
theorem split_not_proportional :
    ((Engine.execute_transfer stC6 "O" "D" "S" 4 "REF" "TL").1.stock.map (·.existencia)) =
      [4, 0, 5] ∧
    (4 : ℚ) ≠ 6 - 4 * (6 / (6 + 2)) := by
  constructor
  · norm_num +decide [Engine.execute_transfer, stC6, wRow, keyPresent, keyMatch, countKey,
      applyDelta, Engine.can_seed_to_store, hasRefNow, Engine.getAduForSku, getStockQ,
      get_stock, intTrunc, List.filter_cons, List.filter_nil]
  · norm_num

/-- Witness for C6 (amended): the concrete two-row origin transfer is the
equal-split mutation. -/
theorem split_is_equal_witness :
    (Engine.execute_transfer stC6 "O" "D" "S" 4 "REF" "TL").2 = true ∧
    (Engine.execute_transfer stC6 "O" "D" "S" 4 "REF" "TL").1.stock =
      applyDelta
        (applyDelta stC6.stock "O" "S" (-(((4 : ℤ) : ℚ) / (countKey stC6.stock "O" "S" : ℚ))))
        "D" "S" (((4 : ℤ) : ℚ) / (countKey stC6.stock "D" "S" : ℚ)) :=
  split_is_equal stC6 "O" "D" "S" 4 "REF" "TL" (by decide) (by decide)

/-- C3 (amended): each seeding gate returns true exactly when the store
already holds a positive row of the reference, or the no-seed policy is off,
or the allow-if-demand flag is on and that gate's own ADU lookup is positive;
the two gates decide identically whenever the engine's normalized first-match
ADU lookup and the drainer's exact last-match dict lookup agree on the queried
store and item (in particular on ADU tables with normalized, duplicate-free
keys). -/
theorem seeding_gate_characterization :
    ∀ (stock : List StockRow) (adus : List AduRow) (ts : List TiempoRow)
      (bodE : Option String) (bodD : String) (ns alw : Bool)
      (trE trD : List Transfer) (t ref sku : String),
      (Engine.can_seed_to_store
          { stock := stock, aduDf := adus, tiemposDf := ts, bodegaPrincipal := bodE,
            noSeed := ns, allowSeedIfAdu := alw, transfers := trE } t ref sku = true ↔
        hasRefNow stock t ref = true ∨ ns = false ∨
          (alw = true ∧ 0 < Engine.getAduForSku adus t sku)) ∧
      (Drainer.can_seed_to_store
          { stock := stock, aduList := adus, bodegaPrincipal := bodD,
            noSeed := ns, allowSeedIfAdu := alw, transfers := trD } t ref sku = true ↔
        hasRefNow stock t ref = true ∨ ns = false ∨
          (alw = true ∧ 0 < aduMapLookup adus t sku)) ∧
      (Engine.getAduForSku adus t sku = aduMapLookup adus t sku →
        Engine.can_seed_to_store
          { stock := stock, aduDf := adus, tiemposDf := ts, bodegaPrincipal := bodE,
            noSeed := ns, allowSeedIfAdu := alw, transfers := trE } t ref sku =
        Drainer.can_seed_to_store
          { stock := stock, aduList := adus, bodegaPrincipal := bodD,
            noSeed := ns, allowSeedIfAdu := alw, transfers := trD } t ref sku) := by
  intro stock adus ts bodE bodD ns alw trE trD t ref sku
  refine ⟨?_, ?_, ?_⟩
  · cases hr : hasRefNow stock t ref <;> cases ns <;> cases alw <;>
      simp [Engine.can_seed_to_store, hr, decide_eq_true_eq]
  · cases hr : hasRefNow stock t ref <;> cases ns <;> cases alw <;>
      simp [Drainer.can_seed_to_store, Drainer.get_adu, hr, decide_eq_true_eq]
  · intro heq
    simp only [Engine.can_seed_to_store, Drainer.can_seed_to_store, Drainer.get_adu, heq]

/-- Counterexample to C3 as stated: on the same stock table and flags, with an
ADU table whose key is stored as `"x"`, the engine gate (which matches SKUs up
to `strip().upper()`) allows seeding item `"X"` while the drainer gate (exact
dict lookup) denies it. -/
theorem seeding_gates_differ_on_normalization :
    Engine.can_seed_to_store stC3e "T" "R" "X" = true ∧
    Drainer.can_seed_to_store stC3d "T" "R" "X" = false ∧
    stC3e.stock = stC3d.stock ∧ stC3e.noSeed = stC3d.noSeed ∧
    stC3e.allowSeedIfAdu = stC3d.allowSeedIfAdu := by
  refine ⟨?_, ?_, rfl, rfl, rfl⟩
  · decide
  · decide

/-- Witness for C3 (amended): on an empty ADU table the two lookups agree and
the gates decide identically. -/
theorem seeding_gate_characterization_witness :
    Engine.can_seed_to_store stC3e0 "T" "R" "X" =
      Drainer.can_seed_to_store stC3d0 "T" "R" "X" :=
  (seeding_gate_characterization [] [] [] none "B" true true [] [] "T" "R" "X").2.2 rfl

theorem drain_exec_props (st : Drainer.State) (o d sku : String) (c : ℤ) (ref talla : String) :
    ((Drainer.execute_transfer st o d sku c ref talla).1.transfers.map
        (fun tr => tr.cantidad)).sum =
      (st.transfers.map (fun tr => tr.cantidad)).sum +
        (if (Drainer.execute_transfer st o d sku c ref talla).2 then c else 0) ∧
    (Drainer.execute_transfer st o d sku c ref talla).1.bodegaPrincipal =
      st.bodegaPrincipal := by
  unfold Drainer.execute_transfer
  split
  · simp
  · simp only []
    refine ⟨?_, by trivial⟩
    simp

theorem drainDestStep_inv (maxDrain : ℤ) (sku ref talla : String)
    (acc : Drainer.State × ℤ × ℤ) (dest : String × ℚ)
    (h1 : (acc.1.transfers.map (fun tr => tr.cantidad)).sum = acc.2.1)
    (h2 : acc.2.1 ≤ maxDrain) :
    ((Drainer.drainDestStep maxDrain sku ref talla acc dest).1.transfers.map
        (fun tr => tr.cantidad)).sum =
      (Drainer.drainDestStep maxDrain sku ref talla acc dest).2.1 ∧
    (Drainer.drainDestStep maxDrain sku ref talla acc dest).2.1 ≤ maxDrain := by
  obtain ⟨st, drained, qtyDisp⟩ := acc
  simp only [] at h1 h2
  unfold Drainer.drainDestStep
  simp only []
  split
  · exact ⟨h1, h2⟩
  split
  · exact ⟨h1, h2⟩
  split
  · exact ⟨h1, h2⟩
  split
  · exact ⟨h1, h2⟩
  rename_i hq0
  split
  · rename_i hqty
    have hprops := drain_exec_props st st.bodegaPrincipal dest.1 sku
      (min (max 0 (MAX_STOCK_PER_SKU - get_stock st.stock dest.1 sku))
        (min qtyDisp (maxDrain - drained))) ref talla
    split
    · rename_i hex
      rw [hex, if_pos rfl] at hprops
      refine ⟨by rw [hprops.1, h1], ?_⟩
      have hle : min (max 0 (MAX_STOCK_PER_SKU - get_stock st.stock dest.1 sku))
          (min qtyDisp (maxDrain - drained)) ≤ maxDrain - drained :=
        le_trans (min_le_right _ _) (min_le_right _ _)
      show drained + _ ≤ maxDrain
      omega
    · rename_i hex
      simp only [Bool.not_eq_true] at hex
      rw [hex] at hprops
      simp only [if_neg (by decide : ¬(false = true)), add_zero] at hprops
      exact ⟨by rw [hprops.1, h1], h2⟩
  · exact ⟨h1, h2⟩

theorem drainDestFold_inv (maxDrain : ℤ) (sku ref talla : String)
    (dests : List (String × ℚ)) (acc : Drainer.State × ℤ × ℤ)
    (h1 : (acc.1.transfers.map (fun tr => tr.cantidad)).sum = acc.2.1)
    (h2 : acc.2.1 ≤ maxDrain) :
    (((dests.foldl (Drainer.drainDestStep maxDrain sku ref talla) acc).1.transfers.map
        (fun tr => tr.cantidad)).sum =
      (dests.foldl (Drainer.drainDestStep maxDrain sku ref talla) acc).2.1) ∧
    (dests.foldl (Drainer.drainDestStep maxDrain sku ref talla) acc).2.1 ≤ maxDrain := by
  induction dests generalizing acc with
  | nil => exact ⟨h1, h2⟩
  | cons dest rest ih =>
    rw [List.foldl_cons]
    rcases drainDestStep_inv maxDrain sku ref talla acc dest h1 h2 with ⟨g1, g2⟩
    exact ih _ g1 g2

theorem drainSkuStep_inv (maxDrain : ℤ) (acc : Drainer.State × ℤ) (entry : String × ℤ × ℚ)
    (h1 : (acc.1.transfers.map (fun tr => tr.cantidad)).sum = acc.2)
    (h2 : acc.2 ≤ maxDrain) :
    ((Drainer.drainSkuStep maxDrain acc entry).1.transfers.map
        (fun tr => tr.cantidad)).sum = (Drainer.drainSkuStep maxDrain acc entry).2 ∧
    (Drainer.drainSkuStep maxDrain acc entry).2 ≤ maxDrain := by
  obtain ⟨st, drained⟩ := acc
  simp only [] at h1 h2
  unfold Drainer.drainSkuStep
  simp only []
  split
  · exact ⟨h1, h2⟩
  split
  · exact ⟨h1, h2⟩
  split
  · exact ⟨h1, h2⟩
  split
  · exact ⟨h1, h2⟩
  · rcases drainDestFold_inv maxDrain entry.1 (⟨entry.1.data.take 7⟩ : String)
      (⟨entry.1.data.drop 7⟩ : String) _ (st, drained, min entry.2.1 (maxDrain - drained))
      h1 h2 with ⟨g1, g2⟩
    exact ⟨g1, g2⟩

theorem drainSkuFold_inv (maxDrain : ℤ) (entries : List (String × ℤ × ℚ))
    (acc : Drainer.State × ℤ)
    (h1 : (acc.1.transfers.map (fun tr => tr.cantidad)).sum = acc.2)
    (h2 : acc.2 ≤ maxDrain) :
    (((entries.foldl (Drainer.drainSkuStep maxDrain) acc).1.transfers.map
        (fun tr => tr.cantidad)).sum =
      (entries.foldl (Drainer.drainSkuStep maxDrain) acc).2) ∧
    (entries.foldl (Drainer.drainSkuStep maxDrain) acc).2 ≤ maxDrain := by
  induction entries generalizing acc with
  | nil => exact ⟨h1, h2⟩
  | cons e rest ih =>
    rw [List.foldl_cons]
    rcases drainSkuStep_inv maxDrain acc e h1 h2 with ⟨g1, g2⟩
    exact ih _ g1 g2

theorem drain_limit_nonneg (st : Drainer.State) (safety : ℚ)
    (h : 0 ≤ Drainer.get_bodega_total st) :
    0 ≤ Drainer.calculate_drain_limit st safety := by
  unfold Drainer.calculate_drain_limit
  split
  · exact h
  · simp only []
    apply Int.le_floor.2
    push_cast
    apply mul_nonneg
    · exact_mod_cast h
    · have : max 0 (min (99 / 100) safety) ≤ 99 / 100 := by
        rename_i hpos
        push_neg at hpos
        rw [max_le_iff]
        constructor
        · linarith
        · exact min_le_left _ _
      linarith

/-- C8 (amended): the drain limit is the warehouse total for `safety ≤ 0` and
`⌊total · (1 − safety)⌋` for `0 < safety ≤ 0.99`; for `safety > 0.99` the ratio
is clamped to `0.99`, giving `⌊total · 0.01⌋` (so the claim's formula fails on
`(0.99, 1)`); and for a non-negative warehouse total the cumulative quantity
of all transfers executed by `drain` never exceeds the limit. -/
theorem drain_limit_and_budget :
    ∀ (stock : List StockRow) (adus : List AduRow) (b : String) (ns alw : Bool)
      (safety : ℚ),
      (safety ≤ 0 →
        Drainer.calculate_drain_limit (Drainer.mkState stock adus b ns alw) safety =
          Drainer.get_bodega_total (Drainer.mkState stock adus b ns alw)) ∧
      (0 < safety → safety ≤ 99 / 100 →
        Drainer.calculate_drain_limit (Drainer.mkState stock adus b ns alw) safety =
          ⌊(Drainer.get_bodega_total (Drainer.mkState stock adus b ns alw) : ℚ) *
            (1 - safety)⌋) ∧
      (99 / 100 < safety →
        Drainer.calculate_drain_limit (Drainer.mkState stock adus b ns alw) safety =
          ⌊(Drainer.get_bodega_total (Drainer.mkState stock adus b ns alw) : ℚ) *
            (1 / 100)⌋) ∧
      (0 ≤ Drainer.get_bodega_total (Drainer.mkState stock adus b ns alw) →
        ((Drainer.drain (Drainer.mkState stock adus b ns alw) safety).2.map
            (fun tr => tr.cantidad)).sum ≤
          Drainer.calculate_drain_limit (Drainer.mkState stock adus b ns alw) safety) := by
  intro stock adus b ns alw safety
  refine ⟨?_, ?_, ?_, ?_⟩
  · intro h
    unfold Drainer.calculate_drain_limit
    rw [if_pos h]
  · intro h1 h2
    unfold Drainer.calculate_drain_limit
    rw [if_neg (not_le.2 h1)]
    simp only []
    rw [min_eq_right h2, max_eq_right (le_of_lt h1)]
  · intro h1
    unfold Drainer.calculate_drain_limit
    rw [if_neg (not_le.2 (lt_trans (by norm_num) h1))]
    simp only []
    rw [min_eq_left (le_of_lt h1), max_eq_right (by norm_num : (0 : ℚ) ≤ 99 / 100),
      show (1 : ℚ) - 99 / 100 = 1 / 100 by norm_num]
  · intro htot
    unfold Drainer.drain
    split
    · simpa using drain_limit_nonneg (Drainer.mkState stock adus b ns alw) safety htot
    · simp only []
      have h0 : (((Drainer.mkState stock adus b ns alw).transfers).map
          (fun tr => tr.cantidad)).sum = (0 : ℤ) := rfl
      rcases drainSkuFold_inv
          (Drainer.calculate_drain_limit (Drainer.mkState stock adus b ns alw) safety)
          (Drainer.get_skus_to_drain (Drainer.mkState stock adus b ns alw))
          (Drainer.mkState stock adus b ns alw, 0) h0
          (drain_limit_nonneg (Drainer.mkState stock adus b ns alw) safety htot)
        with ⟨g1, g2⟩
      rw [g1]
      exact g2

/-- Counterexample to C8 as stated: for a warehouse total of 1000 and safety
ratio 0.995 (inside the claim's range `[0, 1)`), the code clamps the ratio to
0.99 and returns 10, while the claim's formula `⌊T · (1 − r)⌋` gives 5. -/
theorem drain_limit_clamp_deviates :
    Drainer.calculate_drain_limit stC8 (995 / 1000) = 10 ∧
    ⌊(Drainer.get_bodega_total stC8 : ℚ) * (1 - 995 / 1000)⌋ = 5 := by
  constructor <;>
    norm_num +decide [Drainer.calculate_drain_limit, Drainer.get_bodega_total,
      Drainer.getBodegaTotalQ, intTrunc, stC8, Drainer.mkState, wRow, List.filter_cons,
      List.filter_nil, min_def, max_def]

/-- Witness for C8 (amended): for a warehouse of 100 units at safety ratio
0.2 the limit is `⌊100 · 0.8⌋` and the drained transfers stay within it. -/
theorem drain_limit_and_budget_witness :
    Drainer.calculate_drain_limit stC8w (1 / 5) =
      ⌊(Drainer.get_bodega_total stC8w : ℚ) * (1 - 1 / 5)⌋ ∧
    ((Drainer.drain stC8w (1 / 5)).2.map (fun tr => tr.cantidad)).sum ≤
      Drainer.calculate_drain_limit stC8w (1 / 5) :=
  ⟨(drain_limit_and_budget [wRow "B" "SKUABCD" 100 (some 0) 0 false]
      [{ tienda := "T", sku := "SKUABCD", adu := 2 }] "B" true false (1 / 5)).2.1
      (by norm_num) (by norm_num),
   (drain_limit_and_budget [wRow "B" "SKUABCD" 100 (some 0) 0 false]
      [{ tienda := "T", sku := "SKUABCD", adu := 2 }] "B" true false (1 / 5)).2.2.2
      (by norm_num [Drainer.get_bodega_total, Drainer.getBodegaTotalQ, Drainer.mkState,
        intTrunc, wRow, List.filter_cons, List.filter_nil])⟩

theorem calcTargetC4 : Engine.calculate_target_units stC4 "T" "X" = 6 := by
  norm_num +decide [Engine.calculate_target_units, stC4, stockC4, Engine.mkState, wRow,
    firstRow, keyMatch, List.find?_cons, List.find?_nil, intTrunc,
    MIN_POR_SKU_TIENDA, MIN_POR_SKU_ECOM, MAX_STOCK_PER_SKU, DEST_TARGET_COV_DAYS,
    DEST_TARGET_COV_ECOM, min_def, max_def]

theorem identifyC4 : Engine.identify_base_needs stC4 = [] := by
  norm_num +decide [Engine.identify_base_needs, Engine.needAduGE, sortBy, insertSorted,
    stC4, stockC4, Engine.mkState, wRow, intTrunc, MIN_POR_SKU_TIENDA, MIN_POR_SKU_ECOM,
    MAX_STOCK_PER_SKU, List.filter_cons, List.filter_nil, List.filterMap_cons,
    List.filterMap_nil]

theorem runC4 : Engine.run stC4 = stC4 := by
  unfold Engine.run
  rw [identifyC4]
  rfl

/-- Counterexample to C4 as stated: on the scenario state the computed target
is 6 (capped by `MAX_STOCK_PER_SKU`), not 7, and phase 1 executes no transfer
at all (2 units is not strictly below the minimum target 2). -/
theorem base_needs_scenario_fails :
    Engine.calculate_target_units stC4 "T" "X" = 6 ∧ (Engine.run stC4).transfers = [] := by
  refine ⟨calcTargetC4, ?_⟩
  rw [runC4]
  rfl

/-- C4 (amended): on the scenario state the destination is not a shortfall
(its quantity equals its minimum target), so phase 1 identifies no base need
and executes no transfer; the destination keeps 2 units and the warehouse 100;
the target the engine would compute is `min (max 2 ⌈7·1⌉) 6 = 6`. -/
theorem base_needs_scenario_actual :
    Engine.calculate_target_units stC4 "T" "X" = 6 ∧
    Engine.identify_base_needs stC4 = [] ∧
    (Engine.run stC4).transfers = [] ∧
    getStockQ (Engine.run stC4).stock "T" "X" = 2 ∧
    getStockQ (Engine.run stC4).stock "B" "X" = 100 := by
  refine ⟨calcTargetC4, identifyC4, ?_, ?_, ?_⟩ <;> rw [runC4]
  · rfl
  · norm_num +decide [getStockQ, keyMatch, stC4, stockC4, Engine.mkState, wRow,
      List.filter_cons, List.filter_nil]
  · norm_num +decide [getStockQ, keyMatch, stC4, stockC4, Engine.mkState, wRow,
      List.filter_cons, List.filter_nil]

theorem identifyC2 : Engine.identify_base_needs stC2 =
    [{ tienda := "T", sku := "S", referencia := "REF", talla := "TL",
       necesita := 2, isEcom := false, adu := some 0 }] := by
  norm_num +decide [Engine.identify_base_needs, Engine.needAduGE, sortBy, insertSorted,
    stC2, stockC2, Engine.mkState, wRow, intTrunc, MIN_POR_SKU_TIENDA, MIN_POR_SKU_ECOM,
    MAX_STOCK_PER_SKU, List.filter_cons, List.filter_nil, List.filterMap_cons,
    List.filterMap_nil]

theorem rankC2 : Engine.rank_origins_for_sku stC2 "S" "T" = ["B"] := by
  norm_num +decide [Engine.rank_origins_for_sku, Engine.rankCandidates, Engine.rankEntryFor,
    Engine.forceFront, Engine.rankLE, Engine.allowed_to_send, Engine.get_cobertura,
    Engine.isBodega, Engine.check_same_region, Engine.delivery_priority,
    Engine.delivery_days, Engine.findTiempo, firstRow, firstOcc, keyMatch, keyPresent,
    countKey, getStockQ, get_stock, intTrunc, sortBy, insertSorted, stC2, stockC2,
    Engine.mkState, wRow, List.filterMap_cons, List.filterMap_nil, List.find?_cons,
    List.find?_nil, List.filter_cons, List.filter_nil,
    ORIGIN_MIN_COV_DAYS, ORIGIN_MIN_COV_ECOM, MIN_POR_SKU_TIENDA, COV_BUFFER_DAYS]

theorem allowedC2 : Engine.allowed_to_send stC2 "B" "S" = 10 := by
  norm_num +decide [Engine.allowed_to_send, Engine.isBodega, firstRow, keyMatch,
    getStockQ, get_stock, intTrunc, stC2, stockC2, Engine.mkState, wRow,
    List.find?_cons, List.find?_nil, List.filter_cons, List.filter_nil]

theorem keyPresentC2 : keyPresent stC2.stock "T" "S" = true := by decide

theorem targetC2 : Engine.calculate_target_units stC2 "T" "S" = 2 := by
  norm_num +decide [Engine.calculate_target_units, stC2, stockC2, Engine.mkState, wRow,
    firstRow, keyMatch, List.find?_cons, List.find?_nil, intTrunc,
    MIN_POR_SKU_TIENDA, MIN_POR_SKU_ECOM, MAX_STOCK_PER_SKU, DEST_TARGET_COV_DAYS,
    DEST_TARGET_COV_ECOM, min_def, max_def]

theorem getStockC2T : get_stock stC2.stock "T" "S" = 0 := by
  norm_num +decide [get_stock, getStockQ, intTrunc, keyMatch, stC2, stockC2,
    Engine.mkState, wRow, List.filter_cons, List.filter_nil]

theorem condC2 : ¬(keyPresent stC2.stock "T" "S" = false ∧
    Engine.can_seed_to_store stC2 "T" "REF" "S" = false) := by
  intro hc
  exact absurd (keyPresentC2.symm.trans hc.1) (by decide)

theorem execC2_ok : (Engine.execute_transfer stC2 "B" "T" "S" 2 "REF" "TL").2 = true := by
  unfold Engine.execute_transfer
  rw [if_neg condC2]

theorem execC2_stock :
    (Engine.execute_transfer stC2 "B" "T" "S" 2 "REF" "TL").1.stock.map
      (fun r => r.existencia) = [2, 9, -1] := by
  norm_num +decide [Engine.execute_transfer, Engine.can_seed_to_store, hasRefNow,
    Engine.getAduForSku, keyPresent, keyMatch, countKey, getStockQ, get_stock, intTrunc,
    applyDelta, Engine.createNewStockRow, stC2, stockC2, Engine.mkState, wRow,
    List.filter_cons, List.filter_nil, List.find?_cons, List.find?_nil]

theorem runC2_state :
    Engine.run stC2 = (Engine.execute_transfer stC2 "B" "T" "S" 2 "REF" "TL").1 := by
  unfold Engine.run
  rw [identifyC2]
  simp only [Engine.process_base_needs, List.foldl_cons, List.foldl_nil]
  unfold Engine.processNeed
  rw [if_neg condC2]
  simp only []
  rw [rankC2]
  simp only [List.foldl_cons, List.foldl_nil, targetC2, getStockC2T]
  unfold Engine.processOriginsStep
  simp only [allowedC2, getStockC2T]
  norm_num [MAX_STOCK_PER_SKU, min_def, max_def, execC2_ok]

theorem runC2_stock : (Engine.run stC2).stock.map (fun r => r.existencia) = [2, 9, -1] := by
  rw [runC2_state]
  exact execC2_stock

/-- C2 is the non-negativity invariant; this evaluation shows the code
violating it on a reachable phase-1 run: with two warehouse rows of 10 and
0 units for one key, the engine's own gate allows sending 10, and the run
leaves a physical stock row at -1. -/
theorem negative_row_after_equal_split :
    Engine.allowed_to_send stC2 "B" "S" = 10 ∧
    (Engine.run stC2).stock.map (fun r => r.existencia) = [2, 9, -1] ∧
    (Engine.run stC2).stock.any (fun r => decide (r.existencia < 0)) = true := by
  refine ⟨allowedC2, runC2_stock, ?_⟩
  have h := runC2_stock
  rcases hstock : (Engine.run stC2).stock with _ | ⟨r1, rest⟩
  · rw [hstock] at h
    simp at h
  · rw [hstock] at h
    rcases rest with _ | ⟨r2, rest2⟩
    · simp at h
    · rcases rest2 with _ | ⟨r3, rest3⟩
      · simp at h
      · rcases rest3 with _ | ⟨r4, rest4⟩
        · simp only [List.map_cons, List.map_nil, List.cons.injEq] at h
          have h3 : r3.existencia = -1 := h.2.2.1
          simp only [List.any_cons, List.any_nil, h3]
          norm_num
        · simp at h
